import Mathlib

/-!
Verification development for the quarkdown-vscode compilation pipeline.

This file is a shallow embedding of the repository's compiler core:
the AST node vocabulary (`src/compiler/ast/ASTNodes.ts`), the execution
context (`src/compiler/ExecutionContext.ts`), the standard library of
built-in functions (`src/stdlib/StandardLibrary.ts`), the expansion pass
and top-level `compile`/`getDiagnostics` of
`src/compiler/QuarkdownCompiler.ts`, the custom inline rules and the
preprocessing of `src/compiler/QuarkdownParser.ts`, and the HTML
renderer (`src/compiler/QuarkdownRenderer.ts`).

JavaScript numbers are modelled as rationals (ℚ); `parseFloat` and
number-to-string conversion are modelled for decimal notation (no
exponent / Infinity forms — no statement below depends on those forms).
JavaScript `Map`s are modelled as association lists where `set` conses a
binding in front and `get` takes the newest binding.
-/

namespace Quarkdown

/-- Model of a loosely typed JavaScript value as stored in the execution
context's variable and metadata maps.  `undefinedV` models JavaScript
`undefined` (in particular the result of `Map.get` on a missing key). -/
inductive JsValue where
  | undefinedV
  | str (s : String)
  | num (q : ℚ)
  | boolV (b : Bool)
deriving Repr, DecidableEq

/-- The AST node vocabulary of `ASTNodes.ts`, restricted to the node kinds
the compiler core constructs and consumes.  Field names follow the TS
interfaces (`FunctionCallNode.args/namedArgs/body`, `ImageNode.src/alt/...`,
layout nodes with alignment/gap attributes). -/
inductive ASTNode where
  | text (content : String)
  | functionCall (name : String) (args : List ASTNode)
      (namedArgs : List (String × ASTNode)) (body : List ASTNode)
  | variableRef (name : String)
  | paragraph (children : List ASTNode)
  | heading (level : Nat) (children : List ASTNode)
  | list (ordered : Bool) (children : List ASTNode)
  | listItem (children : List ASTNode)
  | blockquote (quoteType : Option String) (children : List ASTNode)
  | code (content : String) (language : Option String) (inline : Bool)
  | math (content : String) (inline : Bool)
  | image (src : String) (alt : String) (title : Option String)
      (width : Option String) (height : Option String)
  | link (url : String) (title : Option String) (children : List ASTNode)
  | emphasis (strong : Bool) (children : List ASTNode)
  | row (alignment : Option String) (gap : Option String) (children : List ASTNode)
  | column (crossAlignment : Option String) (gap : Option String) (children : List ASTNode)
  | grid (columns : Option ℚ) (gap : Option String) (children : List ASTNode)
  | center (children : List ASTNode)
deriving Repr

/-- ASCII decimal digit test, as used by the regexes and by `parseFloat`. -/
def isDigitCh (c : Char) : Bool := 48 ≤ c.toNat ∧ c.toNat ≤ 57

/-- Whitespace as matched by JavaScript `\s` and skipped by `parseFloat`
(restricted to the four common whitespace characters; no statement below
feeds other whitespace forms). -/
def isWsCh (c : Char) : Bool := c = ' ' ∨ c = '\t' ∨ c = '\n' ∨ c = '\r'

/-- Value of a list of decimal digit characters. -/
def digitsToNat (ds : List Char) : ℕ :=
  ds.foldl (fun a c => 10 * a + (c.toNat - 48)) 0

/-- Addition on ℚ, written out over numerators and denominators (kept
kernel-computable; equal to `a + b`). -/
def qAdd (a b : ℚ) : ℚ := mkRat (a.num * b.den + b.num * a.den) (a.den * b.den)

/-- Multiplication on ℚ over numerators and denominators (equal to `a * b`). -/
def qMul (a b : ℚ) : ℚ := mkRat (a.num * b.num) (a.den * b.den)

/-- A natural number as a rational. -/
def natToQ (n : ℕ) : ℚ := mkRat n 1

/-- Model of JavaScript `parseFloat`: skip leading whitespace, optional
sign, then the longest prefix `digits [. digits]`; `none` models `NaN`
(no digit found).  Trailing garbage is ignored, as in JS. -/
def jsParseFloat (s : String) : Option ℚ :=
  let cs := s.data.dropWhile isWsCh
  let signAndRest : ℤ × List Char :=
    match cs with
    | '-' :: t => (-1, t)
    | '+' :: t => (1, t)
    | _ => (1, cs)
  let sign := signAndRest.1
  let cs1 := signAndRest.2
  let intDigits := cs1.takeWhile isDigitCh
  let cs2 := cs1.drop intDigits.length
  let fracDigits : List Char :=
    match cs2 with
    | '.' :: t => t.takeWhile isDigitCh
    | _ => []
  if intDigits.isEmpty ∧ fracDigits.isEmpty then none
  else
    let k := fracDigits.length
    some (mkRat (sign * (digitsToNat intDigits * 10 ^ k + digitsToNat fracDigits)) (10 ^ k))

/-- Floor of a rational as an integer (used to model loop bounds and
number formatting; `Int.fdiv` is floor division). -/
def ratFloor (q : ℚ) : ℤ := Int.fdiv q.num (q.den : ℤ)

/-- Ceiling of a rational as an integer. -/
def ratCeil (q : ℚ) : ℤ := -(ratFloor (-q))

/-- Decimal digits of the fractional part `num/den` (with `num < den`),
produced most significant first; stops at a terminating expansion or
after `fuel` digits. -/
def fracDigitsChars : ℕ → ℕ → ℕ → List Char
  | 0, _, _ => []
  | fuel + 1, num, den =>
    if num = 0 then []
    else Char.ofNat (48 + (num * 10) / den) :: fracDigitsChars fuel ((num * 10) % den) den

/-- Model of JavaScript number-to-string conversion (`String(n)`):
integers print without a decimal point; non-integers print a decimal
expansion (capped at 20 fractional digits — every statement below only
exercises integer values). -/
def jsNumToString (q : ℚ) : String :=
  if q.den = 1 then toString q.num
  else
    let sgn := if q < 0 then "-" else ""
    let a : ℕ := q.num.natAbs
    let ip : ℕ := a / q.den
    sgn ++ toString ip ++ "." ++ String.mk (fracDigitsChars 20 (a % q.den) q.den)

/-- JavaScript truthiness (`!!value`) on a stored value: `undefined`,
`false`, `0` and `""` are falsy, everything else (including the string
`"false"`) is truthy. -/
def jsTruthy : JsValue → Bool
  | .undefinedV => false
  | .str s => s ≠ ""
  | .num q => q ≠ 0
  | .boolV b => b

/-- JavaScript `String(value)` on a stored value. -/
def jsValueToString : JsValue → String
  | .undefinedV => "undefined"
  | .str s => s
  | .num q => jsNumToString q
  | .boolV b => if b then "true" else "false"

/-- JavaScript `x || d` where `x` is a number-or-undefined: `undefined`
and `0` both fall back to the default. -/
def jsOrQ (o : Option ℚ) (d : ℚ) : ℚ :=
  match o with
  | none => d
  | some q => if q = 0 then d else q

/-- Warning categories of `CompileWarning` in `QuarkdownCompiler.ts`. -/
inductive WarnKind where
  | deprecation
  | performance
  | style
deriving Repr, DecidableEq

/-- Error categories of `CompileError` (the TS literals are written
'syntax' | 'semantic' | 'runtime'; the first two are abbreviated here). -/
inductive ErrKind where
  | syn
  | sem
  | runtime
deriving Repr, DecidableEq

/-- `CompileWarning` of `QuarkdownCompiler.ts` (optional line/column). -/
structure CompileWarning where
  message : String
  line : Option ℕ
  column : Option ℕ
  type : WarnKind
deriving Repr, DecidableEq

/-- `CompileError` of `QuarkdownCompiler.ts`. -/
structure CompileError where
  message : String
  line : Option ℕ
  column : Option ℕ
  type : ErrKind
deriving Repr, DecidableEq

/-- Error categories available to the parser's `ParseError`
('syntax' | 'semantic'). -/
inductive PErrKind where
  | syn
  | sem
deriving Repr, DecidableEq

/-- `ParseError` of `QuarkdownParser.ts`. -/
structure ParseError where
  message : String
  line : Option ℕ
  column : Option ℕ
  type : PErrKind
deriving Repr, DecidableEq

/-- Widening of a parse error into the compile-level error list
(`errors.push(...parseResult.errors)` in `compile`). -/
def peToCe (e : ParseError) : CompileError :=
  ⟨e.message, e.line, e.column,
    match e.type with
    | .syn => ErrKind.syn
    | .sem => ErrKind.sem⟩

/-- A user-defined function record (`UserDefinedFunction` in
`ExecutionContext.ts`). -/
structure UserFn where
  name : String
  parameters : List String
  namedParameters : Option (List String)
  body : List ASTNode
deriving Repr

/-- The mutable `ExecutionContext`: global variables, metadata, user
functions, accumulated warnings, the current named-argument record, and
the scope stack.  The head of `scopeStack` models the TOP (most recently
pushed) frame of the TS array. -/
structure Ctx where
  vars : List (String × JsValue)
  metadata : List (String × JsValue)
  userFunctions : List (String × UserFn)
  warnings : List CompileWarning
  namedArgs : List (String × ASTNode)
  scopeStack : List (List (String × JsValue))
deriving Repr

/-- A fresh context.  `initializeBuiltinVariables` seeds `pi`, `e` and
wall-clock date fields; those seeds are environment-dependent, so they
are taken as a parameter. -/
def initialCtx (builtinVars : List (String × JsValue)) : Ctx :=
  ⟨builtinVars, [], [], [], [], []⟩

/-- `ExecutionContext.setVariable`: always writes the GLOBAL variable
map, regardless of any active scope frame. -/
def setVariable (ctx : Ctx) (name : String) (v : JsValue) : Ctx :=
  { ctx with vars := (name, v) :: ctx.vars }

/-- `ExecutionContext.getVariable`: check the top scope frame first, then
fall back to the global map; a miss yields `undefined`. -/
def getVariable (ctx : Ctx) (name : String) : JsValue :=
  match ctx.scopeStack with
  | top :: _ =>
    match List.lookup name top with
    | some v => v
    | none => (List.lookup name ctx.vars).getD .undefinedV
  | [] => (List.lookup name ctx.vars).getD .undefinedV

/-- `ExecutionContext.pushScope`. -/
def pushScope (ctx : Ctx) : Ctx :=
  { ctx with scopeStack := [] :: ctx.scopeStack }

/-- `ExecutionContext.popScope` (`Array.pop`; a no-op on an empty stack). -/
def popScope (ctx : Ctx) : Ctx :=
  { ctx with scopeStack := ctx.scopeStack.tail }

/-- `ExecutionContext.setScopedVariable`: write the top frame when one is
active, otherwise fall back to `setVariable`. -/
def setScopedVariable (ctx : Ctx) (name : String) (v : JsValue) : Ctx :=
  match ctx.scopeStack with
  | top :: rest => { ctx with scopeStack := ((name, v) :: top) :: rest }
  | [] => setVariable ctx name v

/-- `ExecutionContext.setMetadata`. -/
def setMetadata (ctx : Ctx) (key : String) (v : JsValue) : Ctx :=
  { ctx with metadata := (key, v) :: ctx.metadata }

/-- `ExecutionContext.addWarning` (`Array.push`, i.e. append at the end). -/
def addWarning (ctx : Ctx) (w : CompileWarning) : Ctx :=
  { ctx with warnings := ctx.warnings ++ [w] }

/-- `ExecutionContext.defineFunction`. -/
def defineFunction (ctx : Ctx) (name : String) (parameters : List String)
    (body : List ASTNode) (namedParameters : Option (List String)) : Ctx :=
  { ctx with userFunctions := (name, ⟨name, parameters, namedParameters, body⟩) :: ctx.userFunctions }

mutual

/-- `StandardLibrary.getTextFromNode`: the content of a text node, else
the concatenated text of the node's `children` field, else `""`.  Only
the container kinds carry a `children` field in `ASTNodes.ts`; a
function-call node carries `args`/`body` but no `children`. -/
def getTextFromNode : ASTNode → String
  | .text c => c
  | .paragraph cs => getTextFromNodes cs
  | .heading _ cs => getTextFromNodes cs
  | .list _ cs => getTextFromNodes cs
  | .listItem cs => getTextFromNodes cs
  | .blockquote _ cs => getTextFromNodes cs
  | .link _ _ cs => getTextFromNodes cs
  | .emphasis _ cs => getTextFromNodes cs
  | .row _ _ cs => getTextFromNodes cs
  | .column _ _ cs => getTextFromNodes cs
  | .grid _ _ cs => getTextFromNodes cs
  | .center cs => getTextFromNodes cs
  | _ => ""

/-- `children.map(getTextFromNode).join('')`. -/
def getTextFromNodes : List ASTNode → String
  | [] => ""
  | n :: t => getTextFromNode n ++ getTextFromNodes t

end

/-- `getTextFromNode(args[i])` where the index may be out of range:
JavaScript yields `undefined` and the field access `node.type` then
throws a `TypeError`. -/
def getTextE (o : Option ASTNode) : Except String String :=
  match o with
  | none => .error "TypeError: Cannot read properties of undefined (reading type)"
  | some n => .ok (getTextFromNode n)

/-- `StandardLibrary.getNumberFromNode` applied to a possibly-missing
argument; `none` models the `undefined` result on `NaN`. -/
def getNumberFromNodeE (o : Option ASTNode) : Except String (Option ℚ) :=
  match getTextE o with
  | .error e => .error e
  | .ok t => .ok (jsParseFloat t)

/-- `StandardLibrary.getStringArg` over the named-argument record. -/
def getStringArg (namedArgs : List (String × ASTNode)) (name : String) : Option String :=
  (List.lookup name namedArgs).map getTextFromNode

/-- `StandardLibrary.getNumberArg` over the named-argument record
(`undefined` both on a missing key and on `NaN`). -/
def getNumberArg (namedArgs : List (String × ASTNode)) (name : String) : Option ℚ :=
  match List.lookup name namedArgs with
  | none => none
  | some a => jsParseFloat (getTextFromNode a)

/-- `StandardLibrary.evaluateCondition` on the condition's flattened
text: a leading `.` looks the remainder up as a variable and applies
JavaScript truthiness (`!!value`); then the literals `true`/`false`;
then `parseFloat` (truthy iff a number parsed and it is nonzero —
non-numeric text falls out as `false`). -/
def evalCondText (s : String) (ctx : Ctx) : Bool :=
  match s.data with
  | '.' :: rest => jsTruthy (getVariable ctx (String.mk rest))
  | _ =>
    if s = "true" then true
    else if s = "false" then false
    else
      match jsParseFloat s with
      | some n => decide (n ≠ 0)
      | none => false

/-- JSON string escaping for `jsonStringify` (quotes, backslashes and
newlines; other characters pass through). -/
def jsonEscapeChar (c : Char) : List Char :=
  if c = Char.ofNat 34 then [Char.ofNat 92, Char.ofNat 34]
  else if c = Char.ofNat 92 then [Char.ofNat 92, Char.ofNat 92]
  else if c = '\n' then [Char.ofNat 92, 'n']
  else [c]

/-- A JSON string literal. -/
def jsonStr (s : String) : String :=
  "\"" ++ String.mk (s.data.foldr (fun c acc => jsonEscapeChar c ++ acc) []) ++ "\""

/-- Wrap JSON object fields in braces. -/
def jsObjWrap (fields : String) : String := "\x7b" ++ fields ++ "\x7d"

/-- Wrap JSON array elements in brackets. -/
def jsArrWrap (elems : String) : String := "[" ++ elems ++ "]"

mutual

/-- Model of `JSON.stringify` on an AST node as used by
`ExecutionContext.nodeToValue`'s fallback (an approximation of the exact
TS object serialization — optional fields and source locations are not
reproduced; no statement below evaluates it). -/
def jsonStringify : ASTNode → String
  | .text c => jsObjWrap ("\"type\":\"text\",\"content\":" ++ jsonStr c)
  | .variableRef n => jsObjWrap ("\"type\":\"variable\",\"name\":" ++ jsonStr n)
  | .functionCall name args na body =>
    jsObjWrap ("\"type\":\"function_call\",\"name\":" ++ jsonStr name ++
      ",\"args\":" ++ jsArrWrap (jsonList args) ++
      ",\"namedArgs\":" ++ jsObjWrap (jsonPairs na) ++
      ",\"body\":" ++ jsArrWrap (jsonList body))
  | .paragraph cs => jsObjWrap ("\"type\":\"paragraph\",\"children\":" ++ jsArrWrap (jsonList cs))
  | .heading lv cs =>
    jsObjWrap ("\"type\":\"heading\",\"level\":" ++ toString lv ++
      ",\"children\":" ++ jsArrWrap (jsonList cs))
  | .list o cs =>
    jsObjWrap ("\"type\":\"list\",\"ordered\":" ++ (if o then "true" else "false") ++
      ",\"children\":" ++ jsArrWrap (jsonList cs))
  | .listItem cs => jsObjWrap ("\"type\":\"list_item\",\"children\":" ++ jsArrWrap (jsonList cs))
  | .blockquote _ cs => jsObjWrap ("\"type\":\"blockquote\",\"children\":" ++ jsArrWrap (jsonList cs))
  | .code c _ _ => jsObjWrap ("\"type\":\"code\",\"content\":" ++ jsonStr c)
  | .math c _ => jsObjWrap ("\"type\":\"math\",\"content\":" ++ jsonStr c)
  | .image src alt _ _ _ =>
    jsObjWrap ("\"type\":\"image\",\"src\":" ++ jsonStr src ++ ",\"alt\":" ++ jsonStr alt)
  | .link url _ cs =>
    jsObjWrap ("\"type\":\"link\",\"url\":" ++ jsonStr url ++
      ",\"children\":" ++ jsArrWrap (jsonList cs))
  | .emphasis st cs =>
    jsObjWrap ("\"type\":\"emphasis\",\"strong\":" ++ (if st then "true" else "false") ++
      ",\"children\":" ++ jsArrWrap (jsonList cs))
  | .row _ _ cs => jsObjWrap ("\"type\":\"row\",\"children\":" ++ jsArrWrap (jsonList cs))
  | .column _ _ cs => jsObjWrap ("\"type\":\"column\",\"children\":" ++ jsArrWrap (jsonList cs))
  | .grid _ _ cs => jsObjWrap ("\"type\":\"grid\",\"children\":" ++ jsArrWrap (jsonList cs))
  | .center cs => jsObjWrap ("\"type\":\"center\",\"children\":" ++ jsArrWrap (jsonList cs))

/-- Comma-joined serialization of a node list. -/
def jsonList : List ASTNode → String
  | [] => ""
  | [n] => jsonStringify n
  | n :: t => jsonStringify n ++ "," ++ jsonList t

/-- Comma-joined serialization of a named-argument record. -/
def jsonPairs : List (String × ASTNode) → String
  | [] => ""
  | [(k, v)] => jsonStr k ++ ":" ++ jsonStringify v
  | (k, v) :: t => jsonStr k ++ ":" ++ jsonStringify v ++ "," ++ jsonPairs t

end

/-- `ExecutionContext.nodeToValue`: text nodes give their content,
variable nodes give the variable's current value, anything else its
stringified form. -/
def nodeToValue (ctx : Ctx) : ASTNode → JsValue
  | .text c => .str c
  | .variableRef n => getVariable ctx n
  | n => .str (jsonStringify n)

/-- Result shape of a built-in or user function: either a thrown JS
error (its message), or the updated context together with the returned
content (`none` models a `null` return; a single returned node is a
one-element list). -/
abbrev StdResult := Except String (Ctx × Option (List ASTNode))

/-- `StandardLibrary.row`. -/
def rowImpl (_args body : List ASTNode) (ctx : Ctx) : StdResult :=
  .ok (ctx, some [.row (getStringArg ctx.namedArgs "alignment")
    (getStringArg ctx.namedArgs "gap") body])

/-- `StandardLibrary.column`. -/
def columnImpl (_args body : List ASTNode) (ctx : Ctx) : StdResult :=
  .ok (ctx, some [.column (getStringArg ctx.namedArgs "cross")
    (getStringArg ctx.namedArgs "gap") body])

/-- `StandardLibrary.grid`. -/
def gridImpl (_args body : List ASTNode) (ctx : Ctx) : StdResult :=
  .ok (ctx, some [.grid (getNumberArg ctx.namedArgs "columns")
    (getStringArg ctx.namedArgs "gap") body])

/-- `StandardLibrary.center`. -/
def centerImpl (_args body : List ASTNode) (ctx : Ctx) : StdResult :=
  .ok (ctx, some [.center body])

/-- `StandardLibrary.add`: `getNumberFromNode(args[0]) || 0` plus
`getNumberArg(namedArgs, 'to') || 0`, returned as a text node. -/
def addImpl (args _body : List ASTNode) (ctx : Ctx) : StdResult :=
  match getNumberFromNodeE args.head? with
  | .error e => .error e
  | .ok v =>
    let value := jsOrQ v 0
    let toValue := jsOrQ (getNumberArg ctx.namedArgs "to") 0
    .ok (ctx, some [.text (jsNumToString (qAdd value toValue))])

/-- `StandardLibrary.multiply`: the named `by` argument defaults to 1. -/
def multiplyImpl (args _body : List ASTNode) (ctx : Ctx) : StdResult :=
  match getNumberFromNodeE args.head? with
  | .error e => .error e
  | .ok v =>
    let value := jsOrQ v 0
    let byValue := jsOrQ (getNumberArg ctx.namedArgs "by") 1
    .ok (ctx, some [.text (jsNumToString (qMul value byValue))])

/-- `Math.pow` restricted to integer exponents (a non-integer exponent
generally yields an irrational value, unrepresentable in this model; no
statement below exercises that case).  A zero base with a negative
exponent (JS `Infinity`) is modelled as 0. -/
def jsPow (b e : ℚ) : ℚ :=
  if e.den = 1 then
    if 0 ≤ e.num then mkRat (b.num ^ e.num.toNat) (b.den ^ e.num.toNat)
    else if b.num = 0 then 0
    else
      let k := (-e.num).toNat
      mkRat (Int.sign b.num ^ k * (b.den : ℤ) ^ k) (b.num.natAbs ^ k)
  else 0

/-- `StandardLibrary.pow`: the named `to` exponent defaults to 1. -/
def powImpl (args _body : List ASTNode) (ctx : Ctx) : StdResult :=
  match getNumberFromNodeE args.head? with
  | .error e => .error e
  | .ok v =>
    let base := jsOrQ v 0
    let exponent := jsOrQ (getNumberArg ctx.namedArgs "to") 1
    .ok (ctx, some [.text (jsNumToString (jsPow base exponent))])

/-- Truncation toward zero of a rational to an integer (JavaScript
`ToIntegerOrInfinity`). -/
def intTrunc (d : ℚ) : ℤ := if d < 0 then -(ratFloor (-d)) else ratFloor d

/-- Zero-pad a digit string on the left to width `k`. -/
def padLeftZeros (k : ℕ) (s : String) : String :=
  String.mk (List.replicate (k - s.length) '0') ++ s

/-- Model of `Number.prototype.toFixed`: digits outside 0..100 throw a
`RangeError`; otherwise round half away from zero to `k` decimals. -/
def jsToFixedE (q d : ℚ) : Except String String :=
  let di := intTrunc d
  if di < 0 ∨ 100 < di then
    .error "RangeError: toFixed() digits argument must be between 0 and 100"
  else
    let k := di.toNat
    -- round(|q|·10^k + 1/2) computed over integers:
    -- ⌊(|num|·10^k)/den + 1/2⌋ = (2·|num|·10^k + den) / (2·den)
    let a : ℕ := (2 * q.num.natAbs * 10 ^ k + q.den) / (2 * q.den)
    let r : ℤ := (if q < 0 then -1 else 1) * a
    let sgn := if r < 0 then "-" else ""
    if k = 0 then .ok (sgn ++ toString a)
    else .ok (sgn ++ toString (a / 10 ^ k) ++ "." ++ padLeftZeros k (toString (a % 10 ^ k)))

/-- `StandardLibrary.truncate`. -/
def truncateImpl (args body : List ASTNode) (ctx : Ctx) : StdResult :=
  match getNumberFromNodeE args.head? with
  | .error e => .error e
  | .ok d0 =>
    let decimals := jsOrQ d0 0
    let content := getTextFromNodes body
    match jsParseFloat content with
    | none => .ok (ctx, some [.text content])
    | some n =>
      match jsToFixedE n decimals with
      | .error e => .error e
      | .ok s => .ok (ctx, some [.text s])

/-- `StandardLibrary.if`: evaluate the condition text of `args[0]`,
return the body unchanged when truthy, else `null`. -/
def ifImpl (args body : List ASTNode) (ctx : Ctx) : StdResult :=
  match getTextE args.head? with
  | .error e => .error e
  | .ok t => .ok (ctx, if evalCondText t ctx then some body else none)

/-- `StandardLibrary.repeat`: `getNumberFromNode(args[0]) || 1`
iterations of `for (i = 0; i < count; i++)`; each iteration sets the
global `_index` variable and appends the (unevaluated) body nodes. -/
def repeatImpl (args body : List ASTNode) (ctx : Ctx) : StdResult :=
  match getNumberFromNodeE args.head? with
  | .error e => .error e
  | .ok c0 =>
    let count := jsOrQ c0 1
    let iters : ℕ := if count ≤ 0 then 0 else (ratCeil count).toNat
    let final := (List.range iters).foldl
      (fun (p : Ctx × List ASTNode) i =>
        (setVariable p.1 "_index" (.num (natToQ i)), p.2 ++ body))
      (ctx, [])
    .ok (final.1, some final.2)

/-- `StandardLibrary.var`: name from `args[0]`, value from `args[1]`
(default `""`); stored via `context.setVariable` (the GLOBAL map);
always returns `null`. -/
def varImpl (args _body : List ASTNode) (ctx : Ctx) : StdResult :=
  match getTextE args.head? with
  | .error e => .error e
  | .ok name =>
    let value := match args with
      | _ :: v :: _ => getTextFromNode v
      | _ => ""
    .ok (setVariable ctx name (.str value), none)

/-- `StandardLibrary.upper`: upper-case every direct text child of the
body, pass anything else through. -/
def upperImpl (_args body : List ASTNode) (ctx : Ctx) : StdResult :=
  .ok (ctx, some (body.map (fun n =>
    match n with
    | .text c => .text c.toUpper
    | other => other)))

/-- `StandardLibrary.lower`. -/
def lowerImpl (_args body : List ASTNode) (ctx : Ctx) : StdResult :=
  .ok (ctx, some (body.map (fun n =>
    match n with
    | .text c => .text c.toLower
    | other => other)))

/-- `StandardLibrary.docname`. -/
def docnameImpl (args _body : List ASTNode) (ctx : Ctx) : StdResult :=
  match getTextE args.head? with
  | .error e => .error e
  | .ok title => .ok (setMetadata ctx "title" (.str title), none)

/-- `StandardLibrary.docauthor`. -/
def docauthorImpl (args _body : List ASTNode) (ctx : Ctx) : StdResult :=
  match getTextE args.head? with
  | .error e => .error e
  | .ok author => .ok (setMetadata ctx "author" (.str author), none)

/-- `StandardLibrary.doctype` (stores the value as given; the whitelist
check happens in `extractMetadata`, not here). -/
def doctypeImpl (args _body : List ASTNode) (ctx : Ctx) : StdResult :=
  match getTextE args.head? with
  | .error e => .error e
  | .ok d => .ok (setMetadata ctx "doctype" (.str d), none)

/-- `StandardLibrary.theme`: stores the theme name, and the named
`layout` argument when present and truthy. -/
def themeImpl (args _body : List ASTNode) (ctx : Ctx) : StdResult :=
  match getTextE args.head? with
  | .error e => .error e
  | .ok themeName =>
    let layout := getStringArg ctx.namedArgs "layout"
    let ctx1 := setMetadata ctx "theme" (.str themeName)
    let ctx2 := match layout with
      | some s => if s = "" then ctx1 else setMetadata ctx1 "layout" (.str s)
      | none => ctx1
    .ok (ctx2, none)

/-- `StandardLibrary.include`: a placeholder text node (the source's
current implementation does not read the file). -/
def includeImpl (args _body : List ASTNode) (ctx : Ctx) : StdResult :=
  match getTextE args.head? with
  | .error e => .error e
  | .ok path => .ok (ctx, some [.text ("[Included: " ++ path ++ "]")])

/-- `StandardLibrary.function`: record the name and body with an empty
parameter list (the source's simplified implementation extracts no
parameters). -/
def functionImpl (args body : List ASTNode) (ctx : Ctx) : StdResult :=
  match getTextE args.head? with
  | .error e => .error e
  | .ok fname => .ok (defineFunction ctx fname [] body none, none)

/-- The built-in names, in registration order
(`registerStandardFunctions`). -/
def stdlibNames : List String :=
  ["row", "column", "grid", "center", "add", "multiply", "pow", "truncate",
   "if", "repeat", "var", "upper", "lower", "docname", "docauthor",
   "doctype", "theme", "include", "function"]

/-- `StandardLibrary.hasFunction`. -/
def stdlibHas (name : String) : Bool := stdlibNames.contains name

/-- `StandardLibrary.executeFunction`: dispatch on the registered name;
an unregistered name throws `Unknown function: X`. -/
def stdlibExecute (name : String) (args body : List ASTNode) (ctx : Ctx) : StdResult :=
  if name = "row" then rowImpl args body ctx
  else if name = "column" then columnImpl args body ctx
  else if name = "grid" then gridImpl args body ctx
  else if name = "center" then centerImpl args body ctx
  else if name = "add" then addImpl args body ctx
  else if name = "multiply" then multiplyImpl args body ctx
  else if name = "pow" then powImpl args body ctx
  else if name = "truncate" then truncateImpl args body ctx
  else if name = "if" then ifImpl args body ctx
  else if name = "repeat" then repeatImpl args body ctx
  else if name = "var" then varImpl args body ctx
  else if name = "upper" then upperImpl args body ctx
  else if name = "lower" then lowerImpl args body ctx
  else if name = "docname" then docnameImpl args body ctx
  else if name = "docauthor" then docauthorImpl args body ctx
  else if name = "doctype" then doctypeImpl args body ctx
  else if name = "theme" then themeImpl args body ctx
  else if name = "include" then includeImpl args body ctx
  else if name = "function" then functionImpl args body ctx
  else .error ("Unknown function: " ++ name)

/-- `ExecutionContext.hasFunction`: a user-defined name or a built-in. -/
def ctxHasFunction (ctx : Ctx) (name : String) : Bool :=
  (List.lookup name ctx.userFunctions).isSome ∨ stdlibHas name

/-- `ExecutionContext.executeUserFunction`: push a scope, bind the
positional parameters (up to the shorter of the two lists), bind the
named arguments declared by the function, return the recorded body
AS-IS (the source does not re-execute it), and pop the scope. -/
def executeUserFunction (f : UserFn) (args _body : List ASTNode) (ctx : Ctx) : StdResult :=
  let ctx1 := pushScope ctx
  let ctx2 := (f.parameters.zip args).foldl
    (fun c p => setScopedVariable c p.1 (nodeToValue c p.2)) ctx1
  let ctx3 := ctx2.namedArgs.foldl
    (fun c p =>
      if (f.namedParameters.getD []).contains p.1 then
        setScopedVariable c p.1 (nodeToValue c p.2)
      else c) ctx2
  let ctx4 := popScope ctx3
  .ok (ctx4, some f.body)

/-- `ExecutionContext.executeFunction`: user functions take precedence
over built-ins; an unknown name throws. -/
def ctxExecuteFunction (name : String) (args body : List ASTNode) (ctx : Ctx) : StdResult :=
  match List.lookup name ctx.userFunctions with
  | some f => executeUserFunction f args body ctx
  | none =>
    if stdlibHas name then stdlibExecute name args body ctx
    else .error ("Unknown function: " ++ name)

/-- `QuarkdownCompiler.executeFunctionCall`: built-ins first, then the
context's functions; an unresolved name records a single style warning
and returns `null`.  Note the call site passes only `node.name`,
`node.args` and `node.body` — the node's `namedArgs` are never
transferred to the context. -/
def executeFunctionCall (name : String) (args body : List ASTNode) (ctx : Ctx) : StdResult :=
  if stdlibHas name then stdlibExecute name args body ctx
  else if ctxHasFunction ctx name then ctxExecuteFunction name args body ctx
  else .ok (addWarning ctx ⟨"Unknown function: " ++ name, none, none, .style⟩, none)

/-- `QuarkdownCompiler.resolveVariable`: a defined value becomes a text
node of its string form; an undefined name records a single style
warning and becomes the literal `\x7b\x7bname\x7d\x7d` placeholder text. -/
def resolveVariable (name : String) (ctx : Ctx) : Ctx × ASTNode :=
  let v := getVariable ctx name
  if v ≠ .undefinedV then (ctx, .text (jsValueToString v))
  else (addWarning ctx ⟨"Undefined variable: " ++ name, none, none, .style⟩,
    .text ("\x7b\x7b" ++ name ++ "\x7d\x7d"))

mutual

/-- `QuarkdownCompiler.executeNode`: function calls and variables are
expanded; `paragraph`, `heading`, `list` and `blockquote` recurse into
their children (and only those four kinds); every other node is
returned unchanged.  `none` models a `null` result (spliced as
nothing). -/
def executeNode : ASTNode → Ctx → Except String (Ctx × Option (List ASTNode))
  | .functionCall name args _na body, ctx => executeFunctionCall name args body ctx
  | .variableRef name, ctx =>
    let r := resolveVariable name ctx
    .ok (r.1, some [r.2])
  | .paragraph cs, ctx =>
    match executeNodes cs ctx with
    | .error e => .error e
    | .ok (c, ks) => .ok (c, some [.paragraph ks])
  | .heading lv cs, ctx =>
    match executeNodes cs ctx with
    | .error e => .error e
    | .ok (c, ks) => .ok (c, some [.heading lv ks])
  | .list o cs, ctx =>
    match executeNodes cs ctx with
    | .error e => .error e
    | .ok (c, ks) => .ok (c, some [.list o ks])
  | .blockquote qt cs, ctx =>
    match executeNodes cs ctx with
    | .error e => .error e
    | .ok (c, ks) => .ok (c, some [.blockquote qt ks])
  | n, ctx => .ok (ctx, some [n])

/-- The child-processing loop of `executeDocument`/`executeNode`:
execute each node in order, splicing array results flat and dropping
`null` results. -/
def executeNodes : List ASTNode → Ctx → Except String (Ctx × List ASTNode)
  | [], ctx => .ok (ctx, [])
  | n :: rest, ctx =>
    match executeNode n ctx with
    | .error e => .error e
    | .ok (c1, r) =>
      match executeNodes rest c1 with
      | .error e => .error e
      | .ok (c2, rs) =>
        .ok (c2, (match r with
          | none => rs
          | some xs => xs ++ rs))

end

/-- `QuarkdownRenderer.escapeHtml` assigns the text to a detached DOM
element (`div.textContent = text`) and reads back `innerHTML`.  Per the
HTML fragment-serialization algorithm this entity-encodes `&`, `<`, `>`
(and U+00A0); it does NOT touch quotes. -/
def escapeHtmlChar (c : Char) : List Char :=
  if c = '&' then "&amp;".data
  else if c = '<' then "&lt;".data
  else if c = '>' then "&gt;".data
  else if c = Char.ofNat 160 then "&nbsp;".data
  else [c]

/-- Character-wise expansion of `escapeHtml` over a character list. -/
def escapeHtmlList : List Char → List Char
  | [] => []
  | c :: t => escapeHtmlChar c ++ escapeHtmlList t

/-- `QuarkdownRenderer.escapeHtml` on a string. -/
def escapeHtml (s : String) : String := String.mk (escapeHtmlList s.data)

/-- Checker for the entity-encoding discipline of an emitted character
list: every `&` occurring in it is the lead character of one of the
four entities `escapeHtml` produces (`&amp;` `&lt;` `&gt;` `&nbsp;`) —
so no bare ampersand survives into the output. -/
def ampOk : List Char → Bool
  | [] => true
  | c :: t =>
    if c = '&' then
      ("amp;".data.isPrefixOf t || "lt;".data.isPrefixOf t ||
        "gt;".data.isPrefixOf t || "nbsp;".data.isPrefixOf t) && ampOk t
    else ampOk t

/-- Is this character kept by `generateId`'s first regex
(`[^\w\s-]` removal, where `\w` is `[A-Za-z0-9_]`)? -/
def idKeepCh (c : Char) : Bool :=
  ('a' ≤ c ∧ c ≤ 'z') ∨ ('A' ≤ c ∧ c ≤ 'Z') ∨ isDigitCh c ∨ c = '_' ∨ isWsCh c ∨ c = '-'

/-- Is this character collapsed to `-` by `generateId`'s second regex
(`[\s_-]+` → `-`)? -/
def idDashCh (c : Char) : Bool := isWsCh c ∨ c = '_' ∨ c = '-'

/-- Merge consecutive dashes produced by the `[\s_-]+` replacement. -/
def dedupDash : List Char → List Char
  | [] => []
  | c :: t =>
    match dedupDash t with
    | [] => [c]
    | d :: ds => if c = '-' ∧ d = '-' then d :: ds else c :: d :: ds

/-- `QuarkdownRenderer.generateId`: lower-case, strip `[^\w\s-]`,
collapse `[\s_-]+` runs to `-`, trim leading/trailing `-`. -/
def generateId (s : String) : String :=
  let cs := s.toLower.data.filter idKeepCh
  let collapsed := dedupDash (cs.map (fun c => if idDashCh c then '-' else c))
  String.mk (((collapsed.dropWhile (· = '-')).reverse.dropWhile (· = '-')).reverse)

/-- The `rendered.filter(html => html).join('\n')` step of
`renderChildren` (drop empty fragments, join with newlines). -/
def joinRendered (hs : List String) : String :=
  String.intercalate "\n" (hs.filter (fun h => h ≠ ""))

/-- An attribute/class fragment derived from an optional string under
JavaScript truthiness (`node.x ? f(x) : ''`; the empty string is falsy). -/
def optFrag (o : Option String) (f : String → String) : String :=
  match o with
  | some s => if s = "" then "" else f s
  | none => ""

/-- The quote-type icon markup of `getQuoteTypeIcon`. -/
def getQuoteTypeIcon (qt : Option String) : String :=
  match qt with
  | some "note" => "<span class=\"quote-icon\">ℹ️</span> "
  | some "tip" => "<span class=\"quote-icon\">💡</span> "
  | some "warning" => "<span class=\"quote-icon\">⚠️</span> "
  | some "info" => "<span class=\"quote-icon\">📘</span> "
  | _ => ""

mutual

/-- `QuarkdownRenderer.renderNode`: dispatch on the node kind; unknown
kinds (here: the dynamic constructs `function_call` and `variable`,
which the renderer does not handle) are logged and rendered as `""`. -/
def renderNode : ASTNode → String
  | .text c => escapeHtml c
  | .paragraph cs => "<p>" ++ joinRendered (renderNodeList cs) ++ "</p>"
  | .heading lv cs =>
    let content := joinRendered (renderNodeList cs)
    "<h" ++ toString lv ++ " id=\"" ++ generateId content ++ "\">" ++ content ++
      "</h" ++ toString lv ++ ">"
  | .list o cs =>
    let tag := if o then "ol" else "ul"
    "<" ++ tag ++ ">\n" ++ joinRendered (renderNodeList cs) ++ "\n</" ++ tag ++ ">"
  | .listItem cs => "<li>" ++ joinRendered (renderNodeList cs) ++ "</li>"
  | .blockquote qt cs =>
    let content := joinRendered (renderNodeList cs)
    let typeClass := optFrag qt (fun t => " class=\"quote-" ++ t ++ "\"")
    "<blockquote" ++ typeClass ++ ">\n            " ++ getQuoteTypeIcon qt ++
      "\n            " ++ content ++ "\n        </blockquote>"
  | .code c lang inl =>
    let content := escapeHtml c
    if inl then "<code>" ++ content ++ "</code>"
    else
      let languageClass := optFrag lang (fun l => " class=\"language-" ++ l ++ "\"")
      "<pre><code" ++ languageClass ++ ">" ++ content ++ "</code></pre>"
  | .math c inl =>
    let className := if inl then "math math-inline" else "math math-display"
    "<span class=\"" ++ className ++ "\">" ++ escapeHtml c ++ "</span>"
  | .image src alt title width height =>
    let altFrag := if alt = "" then "" else " alt=\"" ++ escapeHtml alt ++ "\""
    let titleFrag := optFrag title (fun t => " title=\"" ++ escapeHtml t ++ "\"")
    let styleProps :=
      (optFrag width (fun w => "width: " ++ w)) ::
      (optFrag height (fun h => "height: " ++ h)) :: []
    let nonEmptyProps := styleProps.filter (fun p => p ≠ "")
    let styleFrag :=
      if nonEmptyProps.isEmpty then ""
      else " style=\"" ++ String.intercalate "; " nonEmptyProps ++ "\""
    "<img src=\"" ++ escapeHtml src ++ "\"" ++ altFrag ++ titleFrag ++ styleFrag ++ ">"
  | .link url title cs =>
    let content := joinRendered (renderNodeList cs)
    let titleFrag := optFrag title (fun t => " title=\"" ++ escapeHtml t ++ "\"")
    "<a href=\"" ++ escapeHtml url ++ "\"" ++ titleFrag ++ ">" ++ content ++ "</a>"
  | .emphasis st cs =>
    let tag := if st then "strong" else "em"
    "<" ++ tag ++ ">" ++ joinRendered (renderNodeList cs) ++ "</" ++ tag ++ ">"
  | .row alignment gap cs =>
    let content := joinRendered (renderNodeList cs)
    let alignmentClass := optFrag alignment (fun a => " alignment-" ++ a)
    let gapStyle := optFrag gap (fun g => " style=\"--gap: " ++ g ++ "\"")
    "<div class=\"qmd-row" ++ alignmentClass ++ "\"" ++ gapStyle ++ ">" ++ content ++ "</div>"
  | .column cross gap cs =>
    let content := joinRendered (renderNodeList cs)
    let crossClass := optFrag cross (fun a => " cross-" ++ a)
    let gapStyle := optFrag gap (fun g => " style=\"--gap: " ++ g ++ "\"")
    "<div class=\"qmd-column" ++ crossClass ++ "\"" ++ gapStyle ++ ">" ++ content ++ "</div>"
  | .grid columns gap cs =>
    let content := joinRendered (renderNodeList cs)
    let columnsStyle := match columns with
      | some n => if n = 0 then "" else "--columns: " ++ jsNumToString n
      | none => ""
    let gapStyle := optFrag gap (fun g => "--gap: " ++ g)
    let styles := String.intercalate "; " ([columnsStyle, gapStyle].filter (fun s => s ≠ ""))
    let styleAttr := if styles = "" then "" else " style=\"" ++ styles ++ "\""
    "<div class=\"qmd-grid\"" ++ styleAttr ++ ">" ++ content ++ "</div>"
  | .center cs => "<div class=\"qmd-center\">" ++ joinRendered (renderNodeList cs) ++ "</div>"
  | .functionCall _ _ _ _ => ""
  | .variableRef _ => ""

/-- Render each node of a list (the `Promise.all(nodes.map(...))` step). -/
def renderNodeList : List ASTNode → List String
  | [] => []
  | n :: t => renderNode n :: renderNodeList t

end

/-- `QuarkdownRenderer.renderChildren`. -/
def renderChildren (cs : List ASTNode) : String := joinRendered (renderNodeList cs)

/-- First character class of the identifier regex `[a-zA-Z_]`. -/
def identStartCh (c : Char) : Bool :=
  ('a' ≤ c ∧ c ≤ 'z') ∨ ('A' ≤ c ∧ c ≤ 'Z') ∨ c = '_'

/-- Subsequent character class `[a-zA-Z0-9_]`. -/
def identCh (c : Char) : Bool := identStartCh c ∨ isDigitCh c

/-- Match the regex `^([a-zA-Z_][a-zA-Z0-9_]*)` at the front of a
character list, yielding the identifier and the remaining characters. -/
def matchIdent (cs : List Char) : Option (String × List Char) :=
  match cs with
  | c :: t =>
    if identStartCh c then
      let more := t.takeWhile identCh
      some (String.mk (c :: more), t.drop more.length)
    else none
  | [] => none

/-- `QuarkdownParser.parseFunctionCall` at a source position: requires a
`.` followed by an identifier — and nothing else; the rule fires no
matter what follows the identifier. -/
def parseFunctionCallRule (cs : List Char) : Option (String × List Char) :=
  match cs with
  | '.' :: t => matchIdent t
  | _ => none

/-- `QuarkdownParser.parseVariable` at a source position: a `.` followed
by an identifier, REJECTED when the next character is `\x7b` or a space. -/
def parseVariableRule (cs : List Char) : Option (String × List Char) :=
  match cs with
  | '.' :: t =>
    match matchIdent t with
    | some (name, rest) =>
      match rest with
      | c :: _ => if c = Char.ofNat 123 ∨ c = ' ' then none else some (name, rest)
      | [] => some (name, rest)
    | none => none
  | _ => none

/-- The token produced for a `.`-prefixed construct by the inline rules. -/
inductive DotToken where
  | fnOpen (name : String)
  | varTok (name : String)
deriving Repr, DecidableEq

/-- The markdown-it inline ruler chain restricted to the `.`-rules:
`setupQuarkdownRules` registers `quarkdown_function` before
`quarkdown_variable` (both before `text`), and the first rule that
matches wins. -/
def classifyDot (cs : List Char) : Option DotToken :=
  match parseFunctionCallRule cs with
  | some (name, _) => some (.fnOpen name)
  | none =>
    match parseVariableRule cs with
    | some (name, _) => some (.varTok name)
    | none => none

/-- True iff the function rule classified the position as a call. -/
def isFnClass (cs : List Char) : Bool :=
  match classifyDot cs with
  | some (.fnOpen _) => true
  | _ => false

/-- Modelled from the spec: the tie-break predicate « presence of an
immediately following `\x7b` or a recognized named-parameter pattern
(`ident:\x7b…\x7d`) makes it a call » — applied to the characters that
follow the identifier. -/
def specCallTieBreak (cs : List Char) : Bool :=
  match cs with
  | c :: _ =>
    if c = Char.ofNat 123 then true
    else
      let cs1 := cs.dropWhile (· = ' ')
      match matchIdent cs1 with
      | some (_, c1 :: c2 :: _) => c1 = ':' ∧ c2 = Char.ofNat 123
      | _ => false
  | [] => false

/-- Match `.ident \s* \x7b [^\x7d]* \x7d` at the front of a character
list — one occurrence of the global regex of
`preprocessFunctionCalls` — yielding the name, the raw argument text
and the remaining characters. -/
def matchCallSyntax (cs : List Char) : Option (String × String × List Char) :=
  match cs with
  | '.' :: t =>
    match matchIdent t with
    | some (name, r1) =>
      let r2 := r1.dropWhile isWsCh
      match r2 with
      | b :: r3 =>
        if b = Char.ofNat 123 then
          let argChars := r3.takeWhile (fun c => c ≠ Char.ofNat 125)
          match r3.drop argChars.length with
          | e :: r4 =>
            if e = Char.ofNat 125 then some (name, String.mk argChars, r4) else none
          | [] => none
        else none
      | [] => none
    | none => none
  | _ => none

/-- The scan of the global regex replace: try a match at each position,
emit the replacement `\x7b\x7bFUNCTION:name:args\x7d\x7d` and continue
after the match, otherwise copy one character (fuel is the remaining
length; each step consumes at least one character). -/
def ppFCAux : ℕ → List Char → List Char
  | 0, cs => cs
  | _ + 1, [] => []
  | fuel + 1, c :: t =>
    match matchCallSyntax (c :: t) with
    | some (name, args, rest) =>
      ("\x7b\x7bFUNCTION:".data ++ name.data ++ [':'] ++ args.data ++ "\x7d\x7d".data) ++
        ppFCAux fuel rest
    | none => c :: ppFCAux fuel t

/-- `QuarkdownParser.preprocessFunctionCalls`: the textual pre-pass that
rewrites every `.name \x7b args \x7d` occurrence into the placeholder
text `\x7b\x7bFUNCTION:name:args\x7d\x7d` BEFORE markdown-it ever
tokenizes the source. -/
def preprocessFunctionCalls (s : String) : String :=
  String.mk (ppFCAux s.data.length s.data)

/-- Result of `QuarkdownParser.parse` (the document node is represented
by its child list). -/
structure ParseResultM where
  ast : List ASTNode
  errors : List ParseError
deriving Repr

/-- `QuarkdownParser.parse`: the try-block (markdown-it tokenization +
`tokensToAST`, which never pushes errors) is abstracted as an outcome;
the catch-branch converts any thrown failure into a single syntax error
with an empty document. -/
def parseModel (tok : Except String (List ASTNode)) : ParseResultM :=
  match tok with
  | .ok children => ⟨children, []⟩
  | .error msg => ⟨[], [⟨"Parse error: " ++ msg, none, none, .syn⟩]⟩

/-- `CompileResult` (the `metadata` record — wall-clock `createdAt`,
title/author/doctype/theme — is orthogonal to every statement below and
not modelled). -/
structure CompileResultM where
  html : String
  errors : List CompileError
  warnings : List CompileWarning
deriving Repr

/-- `QuarkdownCompiler.compile`: parse; under `strict` abort on parse
errors with empty HTML; otherwise execute the document against a fresh
context and render.  A thrown execution failure is caught and converted
to a single runtime error with empty HTML — note that the returned
`warnings` list is the compile-local array, which receives the
context's warnings only AFTER a successful render (the document shell
around the rendered fragment is static and not modelled). -/
def compileModel (builtinVars : List (String × JsValue))
    (tok : Except String (List ASTNode)) (strict : Bool) : CompileResultM :=
  let pr := parseModel tok
  let errors := pr.errors.map peToCe
  if 0 < errors.length ∧ strict then ⟨"", errors, []⟩
  else
    match executeNodes pr.ast (initialCtx builtinVars) with
    | .error msg =>
      ⟨"", errors ++ [⟨"Compilation failed: " ++ msg, none, none, .runtime⟩], []⟩
    | .ok (ctx, children) =>
      ⟨renderChildren children, errors, ctx.warnings⟩

/-- A position in a `getDiagnostics` range. -/
structure DiagPos where
  line : ℕ
  character : ℕ
deriving Repr, DecidableEq

/-- A `getDiagnostics` range (`stop` models the TS field `end`). -/
structure DiagRange where
  start : DiagPos
  stop : DiagPos
deriving Repr, DecidableEq

/-- One diagnostic produced by `QuarkdownCompiler.getDiagnostics`. -/
structure Diagnostic where
  range : DiagRange
  message : String
  severity : ℕ
  source : String
deriving Repr, DecidableEq

/-- The union `CompileError | CompileWarning` iterated by
`[...result.errors, ...result.warnings]`. -/
inductive Issue where
  | err (e : CompileError)
  | warn (w : CompileWarning)
deriving Repr, DecidableEq

/-- `issue.line` across the union. -/
def issueLine : Issue → Option ℕ
  | .err e => e.line
  | .warn w => w.line

/-- `issue.column` across the union. -/
def issueColumn : Issue → Option ℕ
  | .err e => e.column
  | .warn w => w.column

/-- `issue.message` across the union. -/
def issueMessage : Issue → String
  | .err e => e.message
  | .warn w => w.message

/-- `issue.type === 'syntax' || issue.type === 'semantic'` — a warning's
type (deprecation/performance/style) never equals those literals. -/
def issueIsSynOrSem : Issue → Bool
  | .err e => e.type = ErrKind.syn ∨ e.type = ErrKind.sem
  | .warn _ => false

/-- The per-issue mapping of `getDiagnostics`: range from
`issue.line || 0` / `issue.column || 0` to the same line, 10 characters
later; severity 1 for syntax/semantic, else 2; source `quarkdown`. -/
def issueToDiagnostic (i : Issue) : Diagnostic :=
  let l := (issueLine i).getD 0
  let c := (issueColumn i).getD 0
  ⟨⟨⟨l, c⟩, ⟨l, c + 10⟩⟩, issueMessage i, if issueIsSynOrSem i then 1 else 2, "quarkdown"⟩

/-- `QuarkdownCompiler.getDiagnostics` applied to a compile result. -/
def getDiagnostics (res : CompileResultM) : List Diagnostic :=
  ((res.errors.map Issue.err) ++ (res.warnings.map Issue.warn)).map issueToDiagnostic

/-- The full adapter: `getDiagnostics(source)` compiles with
`strict: false` and maps the issues. -/
def getDiagnosticsOf (builtinVars : List (String × JsValue))
    (tok : Except String (List ASTNode)) : List Diagnostic :=
  getDiagnostics (compileModel builtinVars tok false)

/-! ## Helper lemmas -/

/-- `escapeHtmlChar` never emits `<`. -/
theorem escapeHtmlChar_no_lt (c : Char) : '<' ∉ escapeHtmlChar c := by
  unfold escapeHtmlChar
  split_ifs with h1 h2 h3 h4
  · decide
  · decide
  · decide
  · decide
  · simp only [List.mem_singleton]
    intro h
    exact h2 h.symm

/-- `escapeHtmlChar` never emits `>`. -/
theorem escapeHtmlChar_no_gt (c : Char) : '>' ∉ escapeHtmlChar c := by
  unfold escapeHtmlChar
  split_ifs with h1 h2 h3 h4
  · decide
  · decide
  · decide
  · decide
  · simp only [List.mem_singleton]
    intro h
    exact h3 h.symm

/-- `escapeHtmlChar` preserves occurrences of any character outside
`& < > ⟪nbsp⟫` and the entity alphabet — in particular of the two quote
characters. -/
theorem escapeHtmlChar_count_quote (c q : Char)
    (hq : q = Char.ofNat 34 ∨ q = Char.ofNat 39) :
    (escapeHtmlChar c).count q = [c].count q := by
  unfold escapeHtmlChar
  split_ifs with h1 h2 h3 h4
  · subst h1; rcases hq with h | h <;> subst h <;> decide
  · subst h2; rcases hq with h | h <;> subst h <;> decide
  · subst h3; rcases hq with h | h <;> subst h <;> decide
  · subst h4; rcases hq with h | h <;> subst h <;> decide
  · rfl

/-- `escapeHtmlList` never emits `<` or `>`. -/
theorem escapeHtmlList_no_angle (cs : List Char) :
    '<' ∉ escapeHtmlList cs ∧ '>' ∉ escapeHtmlList cs := by
  induction cs with
  | nil => exact ⟨List.not_mem_nil _, List.not_mem_nil _⟩
  | cons c t ih =>
    constructor
    · intro h
      rcases List.mem_append.mp h with h | h
      · exact escapeHtmlChar_no_lt c h
      · exact ih.1 h
    · intro h
      rcases List.mem_append.mp h with h | h
      · exact escapeHtmlChar_no_gt c h
      · exact ih.2 h

/-- `escapeHtmlList` preserves the number of quote characters. -/
theorem escapeHtmlList_count_quote (cs : List Char) (q : Char)
    (hq : q = Char.ofNat 34 ∨ q = Char.ofNat 39) :
    (escapeHtmlList cs).count q = cs.count q := by
  induction cs with
  | nil => rfl
  | cons c t ih =>
    have h1 : escapeHtmlList (c :: t) = escapeHtmlChar c ++ escapeHtmlList t := rfl
    rw [h1, List.count_append, ih, escapeHtmlChar_count_quote c q hq]
    have h2 : (c :: t) = [c] ++ t := rfl
    rw [h2, List.count_append]

/-- Prepending one escaped character preserves the entity-encoding
discipline of the remainder. -/
theorem ampOk_append_escape (c : Char) (r : List Char) :
    ampOk (escapeHtmlChar c ++ r) = ampOk r := by
  unfold escapeHtmlChar
  split_ifs with h1 h2 h3 h4
  · have hd : ("&amp;".data) = ['&', 'a', 'm', 'p', ';'] := by decide
    rw [hd]
    simp [ampOk, List.isPrefixOf]
  · have hd : ("&lt;".data) = ['&', 'l', 't', ';'] := by decide
    rw [hd]
    simp [ampOk, List.isPrefixOf]
  · have hd : ("&gt;".data) = ['&', 'g', 't', ';'] := by decide
    rw [hd]
    simp [ampOk, List.isPrefixOf]
  · have hd : ("&nbsp;".data) = ['&', 'n', 'b', 's', 'p', ';'] := by decide
    rw [hd]
    simp [ampOk, List.isPrefixOf]
  · show ampOk (c :: r) = ampOk r
    simp only [ampOk]
    rw [if_neg h1]

/-- Everything `escapeHtmlList` emits obeys the entity-encoding
discipline: no bare `&` in the output. -/
theorem ampOk_escapeHtmlList (cs : List Char) : ampOk (escapeHtmlList cs) = true := by
  induction cs with
  | nil => rfl
  | cons c t ih =>
    have e : escapeHtmlList (c :: t) = escapeHtmlChar c ++ escapeHtmlList t := rfl
    rw [e, ampOk_append_escape, ih]

/-- Per-character ampersand census of `escapeHtmlChar`: each of
`& < > ⟪nbsp⟫` contributes exactly one `&` (the lead of its entity);
other characters contribute none. -/
theorem escapeHtmlChar_count_amp (c : Char) :
    (escapeHtmlChar c).count '&' =
      [c].count '&' + [c].count '<' + [c].count '>' + [c].count (Char.ofNat 160) := by
  unfold escapeHtmlChar
  split_ifs with h1 h2 h3 h4
  · subst h1; decide
  · subst h2; decide
  · subst h3; decide
  · subst h4; decide
  · simp only [List.count_cons, List.count_nil, beq_iff_eq]
    rw [if_neg h1, if_neg h2, if_neg h3, if_neg h4]

/-- `escapeHtmlList` turns each occurrence of `& < > ⟪nbsp⟫` into
exactly one entity: the output's `&`-count is the sum of those four
input counts. -/
theorem escapeHtmlList_count_amp (cs : List Char) :
    (escapeHtmlList cs).count '&' =
      cs.count '&' + cs.count '<' + cs.count '>' + cs.count (Char.ofNat 160) := by
  induction cs with
  | nil => rfl
  | cons c t ih =>
    have e : escapeHtmlList (c :: t) = escapeHtmlChar c ++ escapeHtmlList t := rfl
    rw [e, List.count_append, ih, escapeHtmlChar_count_amp]
    have e2 : (c :: t) = [c] ++ t := rfl
    rw [e2]
    simp only [List.count_append]
    omega

/-! ## C1 — function-call vs variable-reference tie-break -/

/-- C1, counterexample: the claim states that a `.`-plus-identifier
token is classified as a function call IFF the identifier is
immediately followed by `\x7b` or a named-parameter pattern.  For the
input `.x` (identifier followed by nothing) the code classifies a
function call while the spec's tie-break predicate is false. -/
theorem c1_counterexample :
    ¬ ((isFnClass ('.' :: ['x']) = true) ↔ (specCallTieBreak [] = true)) := by
  decide

/-- C1, amended: every `.`-plus-identifier token is classified as a
function call regardless of what follows the identifier
(`parseFunctionCall` checks only `.` and the identifier and is
registered before `quarkdown_variable`, so the variable rule — which
would itself reject an identifier followed by `\x7b` or a space — is
never reached). -/
theorem c1_amended :
    (∀ (t : List Char) (name : String) (rest : List Char),
      matchIdent t = some (name, rest) →
      classifyDot ('.' :: t) = some (.fnOpen name)) ∧
    (∀ (t : List Char) (name : String) (c : Char) (rest : List Char),
      matchIdent t = some (name, c :: rest) →
      (c = Char.ofNat 123 ∨ c = ' ') →
      parseVariableRule ('.' :: t) = none) := by
  constructor
  · intro t name rest h
    simp only [classifyDot, parseFunctionCallRule, h]
  · intro t name c rest h hc
    simp only [parseVariableRule, h, if_pos hc]

/-- C1, witness for the amended statement at concrete inputs. -/
theorem c1_amended_witness :
    classifyDot ('.' :: ['x']) = some (.fnOpen "x") ∧
    parseVariableRule ('.' :: 'y' :: [Char.ofNat 123]) = none :=
  ⟨c1_amended.1 ['x'] "x" [] rfl,
   c1_amended.2 ('y' :: [Char.ofNat 123]) "y" (Char.ofNat 123) [] rfl (Or.inl rfl)⟩

/-! ## C2 — the binary math built-ins -/

/-- C2: what the code actually does with `.add \x7b5\x7d to:\x7b3\x7d`
(and the analogous `multiply`/`pow` documents).  (1) The preprocessor
destroys the call before tokenization, rewriting it to literal
placeholder text.  (2) Even for a function-call node carrying the named
argument, `executeFunctionCall` passes only `name`/`args`/`body`, and
`setNamedArgs` is never invoked, so `add` reads an empty named-argument
record and returns "5" (resp. "6", "2") — not "8" (resp. "18", "8").
(3) The implementations themselves WOULD produce "8"/"18"/"8" were the
named arguments installed in the context, matching the spec's table. -/
theorem c2_code_behavior :
    preprocessFunctionCalls ".add \x7b5\x7d to:\x7b3\x7d" = "\x7b\x7bFUNCTION:add:5\x7d\x7d to:\x7b3\x7d" ∧
    executeNode (.functionCall "add" [.text "5"] [("to", .text "3")] []) (initialCtx []) =
      .ok (initialCtx [], some [.text "5"]) ∧
    executeNode (.functionCall "multiply" [.text "6"] [("by", .text "3")] []) (initialCtx []) =
      .ok (initialCtx [], some [.text "6"]) ∧
    executeNode (.functionCall "pow" [.text "2"] [("to", .text "3")] []) (initialCtx []) =
      .ok (initialCtx [], some [.text "2"]) ∧
    addImpl [.text "5"] [] { initialCtx [] with namedArgs := [("to", .text "3")] } =
      .ok ({ initialCtx [] with namedArgs := [("to", .text "3")] }, some [.text "8"]) ∧
    multiplyImpl [.text "6"] [] { initialCtx [] with namedArgs := [("by", .text "3")] } =
      .ok ({ initialCtx [] with namedArgs := [("by", .text "3")] }, some [.text "18"]) ∧
    powImpl [.text "2"] [] { initialCtx [] with namedArgs := [("to", .text "3")] } =
      .ok ({ initialCtx [] with namedArgs := [("to", .text "3")] }, some [.text "8"]) :=
  ⟨rfl, rfl, rfl, rfl, rfl, rfl, rfl⟩

/-! ## C3 — parse never throws -/

/-- C3: `parse` always returns normally; a thrown internal failure is
converted into EXACTLY one syntax-kind error together with an empty
document, and a successful run returns the converted tree with no
errors. -/
theorem c3_parse_failure (msg : String) (children : List ASTNode) :
    (parseModel (.error msg)).errors =
      [⟨"Parse error: " ++ msg, none, none, PErrKind.syn⟩] ∧
    (parseModel (.error msg)).ast = [] ∧
    parseModel (.ok children) = ⟨children, []⟩ :=
  ⟨rfl, rfl, rfl⟩

/-! ## C4 — unknown functions and undefined variables are warnings -/

/-- C4: an unresolvable function call records exactly one style warning
"Unknown function: X" and is replaced by nothing; an unbound variable
reference records exactly one style warning "Undefined variable: X" and
is replaced by the literal `\x7b\x7bname\x7d\x7d` placeholder text; in
both cases expansion continues (an `ok` result, no error). -/
theorem c4_unknown_warnings :
    (∀ (name : String) (args : List ASTNode) (na : List (String × ASTNode))
      (body : List ASTNode) (ctx : Ctx),
      stdlibHas name = false →
      List.lookup name ctx.userFunctions = none →
      executeNode (.functionCall name args na body) ctx =
        .ok ({ ctx with warnings :=
          ctx.warnings ++ [⟨"Unknown function: " ++ name, none, none, .style⟩] }, none)) ∧
    (∀ (name : String) (ctx : Ctx),
      getVariable ctx name = .undefinedV →
      executeNode (.variableRef name) ctx =
        .ok ({ ctx with warnings :=
          ctx.warnings ++ [⟨"Undefined variable: " ++ name, none, none, .style⟩] },
          some [.text ("\x7b\x7b" ++ name ++ "\x7d\x7d")])) := by
  constructor
  · intro name args na body ctx h1 h2
    have he : executeNode (.functionCall name args na body) ctx =
        executeFunctionCall name args body ctx := rfl
    rw [he]
    unfold executeFunctionCall ctxHasFunction
    rw [h1, h2]
    simp [addWarning]
  · intro name ctx h
    have he : executeNode (.variableRef name) ctx =
        .ok ((resolveVariable name ctx).1, some [(resolveVariable name ctx).2]) := rfl
    rw [he]
    unfold resolveVariable
    rw [h]
    simp [addWarning]

/-- C4, witness at concrete inputs (`nope` is no built-in and no user
function; `foo` is unbound in a fresh context). -/
theorem c4_unknown_warnings_witness :
    executeNode (.functionCall "nope" [] [] []) (initialCtx []) =
      .ok ({ initialCtx [] with warnings :=
        [⟨"Unknown function: nope", none, none, .style⟩] }, none) ∧
    executeNode (.variableRef "foo") (initialCtx []) =
      .ok ({ initialCtx [] with warnings :=
        [⟨"Undefined variable: foo", none, none, .style⟩] },
        some [.text "\x7b\x7bfoo\x7d\x7d"]) :=
  ⟨c4_unknown_warnings.1 "nope" [] [] [] (initialCtx []) rfl rfl,
   c4_unknown_warnings.2 "foo" (initialCtx []) rfl⟩

/-! ## C5 — condition evaluation of `.if` -/

/-- C5, counterexample: with `flag` set to the STRING `"false"`, the
condition `.flag` is JavaScript-truthy (a non-empty string), so the body
IS returned — the claim says it is absent.  Moreover a non-numeric
opaque string such as `"hello"` evaluates to `false` — the claim's
case (d) says a non-empty string is truthy. -/
theorem c5_counterexample :
    ifImpl [.text ".flag"] [.text "body"]
        { initialCtx [] with vars := [("flag", .str "false")] } =
      .ok ({ initialCtx [] with vars := [("flag", .str "false")] }, some [.text "body"]) ∧
    evalCondText "hello" (initialCtx []) = false :=
  ⟨rfl, rfl⟩

/-- C5, amended: `.if \x7b.flag\x7d` includes its body when `flag` is
`"true"` and drops it (without error) when `flag` is unset; a condition
with a leading `.` is truthy iff the variable's value is
JavaScript-truthy (so the string `"false"` counts as truthy); the
remaining cases are tried in the order boolean literal, then number
(truthy iff nonzero), and ANY other string — empty or not — is falsy. -/
theorem c5_amended :
    (∀ (ctx : Ctx) (body : List ASTNode),
      getVariable ctx "flag" = .str "true" →
      ifImpl [.text ".flag"] body ctx = .ok (ctx, some body)) ∧
    (∀ (ctx : Ctx) (body : List ASTNode),
      getVariable ctx "flag" = .undefinedV →
      ifImpl [.text ".flag"] body ctx = .ok (ctx, none)) ∧
    (∀ (ctx : Ctx) (rest : List Char),
      evalCondText (String.mk ('.' :: rest)) ctx =
        jsTruthy (getVariable ctx (String.mk rest))) ∧
    (∀ ctx : Ctx, evalCondText "true" ctx = true ∧ evalCondText "false" ctx = false) ∧
    (∀ (s : String) (ctx : Ctx) (n : ℚ),
      s.data.head? ≠ some '.' → s ≠ "true" → s ≠ "false" →
      jsParseFloat s = some n →
      evalCondText s ctx = decide (n ≠ 0)) ∧
    (∀ (s : String) (ctx : Ctx),
      s.data.head? ≠ some '.' → s ≠ "true" → s ≠ "false" →
      jsParseFloat s = none →
      evalCondText s ctx = false) := by
  refine ⟨?_, ?_, ?_, ?_, ?_, ?_⟩
  · intro ctx body h
    have e : ifImpl [.text ".flag"] body ctx =
        .ok (ctx, if jsTruthy (getVariable ctx "flag") then some body else none) := rfl
    rw [e, h]
    rfl
  · intro ctx body h
    have e : ifImpl [.text ".flag"] body ctx =
        .ok (ctx, if jsTruthy (getVariable ctx "flag") then some body else none) := rfl
    rw [e, h]
    rfl
  · intro ctx rest
    rfl
  · intro ctx
    exact ⟨rfl, rfl⟩
  · intro s ctx n hhead htrue hfalse hparse
    unfold evalCondText
    split
    · rename_i rest heq
      exact absurd (by rw [heq]; rfl) hhead
    · rw [if_neg htrue, if_neg hfalse, hparse]
  · intro s ctx hhead htrue hfalse hparse
    unfold evalCondText
    split
    · rename_i rest heq
      exact absurd (by rw [heq]; rfl) hhead
    · rw [if_neg htrue, if_neg hfalse, hparse]

/-- C5, witness for the amended statement at concrete inputs. -/
theorem c5_amended_witness :
    ifImpl [.text ".flag"] [.text "b"]
        { initialCtx [] with vars := [("flag", .str "true")] } =
      .ok ({ initialCtx [] with vars := [("flag", .str "true")] }, some [.text "b"]) ∧
    ifImpl [.text ".flag"] [.text "b"] (initialCtx []) = .ok (initialCtx [], none) ∧
    evalCondText "2" (initialCtx []) = decide ((2 : ℚ) ≠ 0) ∧
    evalCondText "hi" (initialCtx []) = false :=
  ⟨c5_amended.1 _ _ rfl,
   c5_amended.2.1 _ _ rfl,
   c5_amended.2.2.2.2.1 "2" (initialCtx []) 2 (by decide) (by decide) (by decide) rfl,
   c5_amended.2.2.2.2.2 "hi" (initialCtx []) (by decide) (by decide) (by decide) rfl⟩

/-! ## C6 — `.var` and the current scope -/

/-- C6, counterexample: with an active scope frame binding `x`,
executing `.var \x7bx\x7d \x7b5\x7d` writes the GLOBAL variable map —
NOT the top scope frame, which the claim designates as the storage
target — so a subsequent lookup still sees the frame's old value, not
"5". -/
theorem c6_counterexample :
    varImpl [.text "x", .text "5"] []
        { initialCtx [] with scopeStack := [[("x", .str "old")]] } =
      .ok ({ initialCtx [] with
             vars := [("x", .str "5")]
             scopeStack := [[("x", .str "old")]] }, none) ∧
    getVariable { initialCtx [] with
        vars := [("x", .str "5")]
        scopeStack := [[("x", .str "old")]] } "x" = .str "old" ∧
    JsValue.str "old" ≠ JsValue.str "5" :=
  ⟨rfl, rfl, by decide⟩

/-- C6, amended: `.var \x7bname\x7d \x7bvalue\x7d` stores the value
(default `""` when the second argument is absent) in the environment's
GLOBAL variable map — bypassing any active scope frame — and returns
nothing; with no scope active, a subsequent reference to the name
expands to the literal value text, so `.var \x7bx\x7d \x7b5\x7d`
followed by a reference to `x` renders "5". -/
theorem c6_amended :
    (∀ (ctx : Ctx) (name value : String) (body : List ASTNode),
      varImpl [.text name, .text value] body ctx =
        .ok ({ ctx with vars := (name, .str value) :: ctx.vars }, none)) ∧
    (∀ (ctx : Ctx) (name : String) (body : List ASTNode),
      varImpl [.text name] body ctx =
        .ok ({ ctx with vars := (name, .str "") :: ctx.vars }, none)) ∧
    executeNodes [.functionCall "var" [.text "x", .text "5"] [] [], .variableRef "x"]
        (initialCtx []) =
      .ok ({ initialCtx [] with vars := [("x", .str "5")] }, [.text "5"]) ∧
    renderChildren [.text "5"] = "5" :=
  ⟨fun _ _ _ _ => rfl, fun _ _ _ => rfl, rfl, rfl⟩

/-! ## C7 — `.repeat` and the loop index -/

/-- C7, counterexample: `.repeat \x7b3\x7d` over the body
`[.variableRef "_index"]` splices three UNEXPANDED copies of the body;
`_index` ends at 2 in the environment, and the emitted references are
never resolved — the renderer drops them entirely — so no iteration
value 0/1/2 is ever visible in the output, contrary to the claim. -/
theorem c7_counterexample :
    executeNodes [.functionCall "repeat" [.text "3"] [] [.variableRef "_index"]]
        (initialCtx []) =
      .ok ({ initialCtx [] with vars :=
        [("_index", .num 2), ("_index", .num 1), ("_index", .num 0)] },
        [.variableRef "_index", .variableRef "_index", .variableRef "_index"]) ∧
    getVariable { initialCtx [] with vars :=
        [("_index", .num 2), ("_index", .num 1), ("_index", .num 0)] } "_index" = .num 2 ∧
    renderChildren [.variableRef "_index", .variableRef "_index", .variableRef "_index"] = "" :=
  ⟨rfl, rfl, rfl⟩

/-- C7, amended: `.repeat \x7b3\x7d` emits the body three times in
document order and successively sets `_index` to 0, 1, 2 in the
environment DURING execution (leaving `_index` = 2 afterwards), but the
emitted copies are spliced without re-evaluation, so variable
references inside the repeated body remain unexpanded rather than
seeing the per-iteration index; a non-numeric count defaults to 1. -/
theorem c7_amended :
    (∀ (na : List (String × ASTNode)) (body : List ASTNode) (ctx : Ctx),
      executeNode (.functionCall "repeat" [.text "3"] na body) ctx =
        .ok ({ ctx with vars := ("_index", .num 2) :: ("_index", .num 1) ::
          ("_index", .num 0) :: ctx.vars }, some ((body ++ body) ++ body))) ∧
    (∀ (s : String) (body : List ASTNode) (ctx : Ctx),
      jsParseFloat s = none →
      repeatImpl [.text s] body ctx =
        .ok ({ ctx with vars := ("_index", .num 0) :: ctx.vars }, some body)) := by
  constructor
  · intro na body ctx
    rfl
  · intro s body ctx h
    have e1 : getNumberFromNodeE (List.head? [ASTNode.text s]) = .ok (jsParseFloat s) := rfl
    unfold repeatImpl
    rw [e1, h]
    rfl

/-- C7, witness for the amended statement at concrete inputs. -/
theorem c7_amended_witness :
    executeNode (.functionCall "repeat" [.text "3"] [] [.text "item"]) (initialCtx []) =
      .ok ({ initialCtx [] with vars :=
        [("_index", .num 2), ("_index", .num 1), ("_index", .num 0)] },
        some [.text "item", .text "item", .text "item"]) ∧
    repeatImpl [.text "item"] [.text "x"] (initialCtx []) =
      .ok ({ initialCtx [] with vars := [("_index", .num 0)] }, some [.text "x"]) :=
  ⟨c7_amended.1 [] [.text "item"] (initialCtx []),
   c7_amended.2 "item" [.text "x"] (initialCtx []) rfl⟩

/-! ## C8 — HTML escaping of user content -/

/-- C8, counterexample: `escapeHtml` (the DOM `textContent`/`innerHTML`
round trip) leaves `"` and `'` unchanged, both in text positions and
inside attribute values — the claim says all five of `& < > " '` are
entity-encoded before emission.  Moreover the renderer's code path
emits the user-typed fence language RAW into the `class` attribute
(`class="language-<b>"` for the language `<b>`), so raw user content
does reach an attribute position unescaped. -/
theorem c8_counterexample :
    renderNode (.text (String.mk [Char.ofNat 34, Char.ofNat 39])) =
      String.mk [Char.ofNat 34, Char.ofNat 39] ∧
    renderNode (.image "x" (String.mk [Char.ofNat 34]) none none none) =
      "<img src=\"x\" alt=\"" ++ String.mk [Char.ofNat 34] ++ "\">" ∧
    renderNode (.code "x" (some (String.mk ['<', 'b', '>'])) false) =
      "<pre><code class=\"language-" ++ String.mk ['<', 'b', '>'] ++ "\">x</code></pre>" :=
  ⟨rfl, rfl, rfl⟩

/-- C8, amended: the strings the renderer routes through `escapeHtml` —
text-node content, code/math content, and the `src`/`alt`/`title`/`href`
attribute values of images and links — have `&`, `<` and `>`
entity-encoded before emission: no `<` or `>` survives, every `&` in
the output is the lead of one of the entities `&amp;`/`&lt;`/`&gt;`/
`&nbsp;`, and each occurrence of those source characters yields exactly
one entity; `"` and `'` are never encoded (their occurrence counts are
preserved verbatim), and user content emitted outside `escapeHtml` —
such as a code block's language name inside `class="language-…"` — is
passed through raw. -/
theorem c8_amended :
    (∀ s : String, '<' ∉ (escapeHtml s).data ∧ '>' ∉ (escapeHtml s).data) ∧
    (∀ s : String, ampOk (escapeHtml s).data = true) ∧
    (∀ s : String,
      (escapeHtml s).data.count '&' =
        s.data.count '&' + s.data.count '<' + s.data.count '>' +
          s.data.count (Char.ofNat 160)) ∧
    (∀ s : String,
      (escapeHtml s).data.count (Char.ofNat 34) = s.data.count (Char.ofNat 34) ∧
      (escapeHtml s).data.count (Char.ofNat 39) = s.data.count (Char.ofNat 39)) ∧
    (∀ s : String, renderNode (.text s) = escapeHtml s) ∧
    (∀ (c : String) (inl : Bool),
      renderNode (.math c inl) =
        "<span class=\"" ++ (if inl then "math math-inline" else "math math-display") ++
          "\">" ++ escapeHtml c ++ "</span>") ∧
    (∀ src alt : String, alt ≠ "" →
      renderNode (.image src alt none none none) =
        "<img src=\"" ++ escapeHtml src ++ "\"" ++
          (" alt=\"" ++ escapeHtml alt ++ "\"") ++ ">") ∧
    (∀ (url : String) (cs : List ASTNode),
      renderNode (.link url none cs) =
        "<a href=\"" ++ escapeHtml url ++ "\"" ++ ">" ++ renderChildren cs ++ "</a>") ∧
    (∀ content lang : String, lang ≠ "" →
      renderNode (.code content (some lang) false) =
        "<pre><code" ++ (" class=\"language-" ++ lang ++ "\"") ++ ">" ++
          escapeHtml content ++ "</code></pre>") := by
  refine ⟨?_, ?_, ?_, ?_, ?_, ?_, ?_, ?_, ?_⟩
  · intro s
    exact escapeHtmlList_no_angle s.data
  · intro s
    exact ampOk_escapeHtmlList s.data
  · intro s
    exact escapeHtmlList_count_amp s.data
  · intro s
    exact ⟨escapeHtmlList_count_quote s.data _ (Or.inl rfl),
      escapeHtmlList_count_quote s.data _ (Or.inr rfl)⟩
  · intro s
    rfl
  · intro c inl
    cases inl <;> rfl
  · intro src alt h
    have e : renderNode (.image src alt none none none) =
        "<img src=\"" ++ escapeHtml src ++ "\"" ++
          (if alt = "" then "" else " alt=\"" ++ escapeHtml alt ++ "\"") ++
          "" ++ "" ++ ">" := rfl
    rw [e, if_neg h, String.append_empty, String.append_empty]
  · intro url cs
    have e : renderNode (.link url none cs) =
        "<a href=\"" ++ escapeHtml url ++ "\"" ++ "" ++ ">" ++
          renderChildren cs ++ "</a>" := rfl
    rw [e, String.append_empty]
  · intro content lang h
    have e : renderNode (.code content (some lang) false) =
        "<pre><code" ++
          (if lang = "" then "" else " class=\"language-" ++ lang ++ "\"") ++ ">" ++
          escapeHtml content ++ "</code></pre>" := rfl
    rw [e, if_neg h]

/-- C8, witness for the amended statement at concrete inputs. -/
theorem c8_amended_witness :
    renderNode (.image "u" "a" none none none) =
      "<img src=\"" ++ escapeHtml "u" ++ "\"" ++ (" alt=\"" ++ escapeHtml "a" ++ "\"") ++ ">" ∧
    renderNode (.code "y" (some "js") false) =
      "<pre><code" ++ (" class=\"language-" ++ "js" ++ "\"") ++ ">" ++
        escapeHtml "y" ++ "</code></pre>" :=
  ⟨c8_amended.2.2.2.2.2.2.1 "u" "a" (by decide),
   c8_amended.2.2.2.2.2.2.2.2 "y" "js" (by decide)⟩

/-! ## C9 — top-level catch of compile -/

/-- C9, counterexample: a document whose first node records a style
warning in the context and whose second node throws (`.var` with no
arguments).  The returned result has empty HTML and one runtime error,
but its `warnings` list is EMPTY: the context-accumulated warning
(second conjunct) is absent, while the claim requires every
pre-failure warning to be returned. -/
theorem c9_counterexample :
    compileModel [] (.ok [.functionCall "nope" [] [] [], .functionCall "var" [] [] []]) false =
      ⟨"", [⟨"Compilation failed: TypeError: Cannot read properties of undefined (reading type)",
        none, none, .runtime⟩], []⟩ ∧
    executeNodes [.functionCall "nope" [] [] []] (initialCtx []) =
      .ok ({ initialCtx [] with warnings :=
        [⟨"Unknown function: nope", none, none, .style⟩] }, []) :=
  ⟨rfl, rfl⟩

/-- C9, amended: a thrown execution failure still returns normally with
empty HTML and exactly one runtime-category error appended, but the
returned warnings list is EMPTY — warnings accumulated in the execution
context before the failure are discarded (the compile-level list only
receives the context's warnings after a successful render). -/
theorem c9_amended :
    (∀ (builtins : List (String × JsValue)) (children : List ASTNode)
      (msg : String) (strict : Bool),
      executeNodes children (initialCtx builtins) = .error msg →
      compileModel builtins (.ok children) strict =
        ⟨"", [⟨"Compilation failed: " ++ msg, none, none, .runtime⟩], []⟩) ∧
    (∀ (builtins : List (String × JsValue)) (children : List ASTNode)
      (ctx : Ctx) (out : List ASTNode) (strict : Bool),
      executeNodes children (initialCtx builtins) = .ok (ctx, out) →
      compileModel builtins (.ok children) strict =
        ⟨renderChildren out, [], ctx.warnings⟩) := by
  constructor
  · intro builtins children msg strict h
    simp [compileModel, parseModel, h]
  · intro builtins children ctx out strict h
    simp [compileModel, parseModel, h]

/-- C9, witness for the amended statement at concrete inputs. -/
theorem c9_amended_witness :
    compileModel [] (.ok [.functionCall "var" [] [] []]) false =
      ⟨"", [⟨"Compilation failed: TypeError: Cannot read properties of undefined (reading type)",
        none, none, .runtime⟩], []⟩ ∧
    compileModel [] (.ok [.text "hi"]) false = ⟨"hi", [], []⟩ :=
  ⟨c9_amended.1 [] [.functionCall "var" [] [] []]
      "TypeError: Cannot read properties of undefined (reading type)" false rfl,
   c9_amended.2 [] [.text "hi"] (initialCtx []) [.text "hi"] false rfl⟩

/-! ## C10 — diagnostics mapping -/

/-- C10: `getDiagnostics` assigns severity 1 exactly to syntax/semantic
errors — runtime errors and every warning get severity 2 — and each
diagnostic's range runs from the issue's line/column (defaulting to 0)
to 10 characters later on the same line. -/
theorem c10_diagnostics :
    (∀ res : CompileResultM,
      getDiagnostics res =
        res.errors.map (fun e =>
          ⟨⟨⟨e.line.getD 0, e.column.getD 0⟩, ⟨e.line.getD 0, e.column.getD 0 + 10⟩⟩,
            e.message, if e.type = ErrKind.syn ∨ e.type = ErrKind.sem then 1 else 2,
            "quarkdown"⟩) ++
        res.warnings.map (fun w =>
          ⟨⟨⟨w.line.getD 0, w.column.getD 0⟩, ⟨w.line.getD 0, w.column.getD 0 + 10⟩⟩,
            w.message, 2, "quarkdown"⟩)) ∧
    (∀ (builtins : List (String × JsValue)) (tok : Except String (List ASTNode)),
      getDiagnosticsOf builtins tok = getDiagnostics (compileModel builtins tok false)) := by
  constructor
  · intro res
    have herr : ∀ e : CompileError,
        issueToDiagnostic (.err e) =
          ⟨⟨⟨e.line.getD 0, e.column.getD 0⟩, ⟨e.line.getD 0, e.column.getD 0 + 10⟩⟩,
            e.message, if e.type = ErrKind.syn ∨ e.type = ErrKind.sem then 1 else 2,
            "quarkdown"⟩ := by
      intro e
      rcases e with ⟨m, l, c, ty⟩
      cases ty <;> rfl
    have hwarn : ∀ w : CompileWarning,
        issueToDiagnostic (.warn w) =
          ⟨⟨⟨w.line.getD 0, w.column.getD 0⟩, ⟨w.line.getD 0, w.column.getD 0 + 10⟩⟩,
            w.message, 2, "quarkdown"⟩ := fun _ => rfl
    unfold getDiagnostics
    rw [List.map_append, List.map_map, List.map_map]
    simp only [Function.comp_def, herr, hwarn]
  · intro builtins tok
    rfl

end Quarkdown
